import Mathlib

/-
Verification of the request router in saltapi/__init__.py (class APIClient).

The router receives a "lowstate" request record (a Python dict with string
keys), normalizes the client selection and function name, checks that a
credential key is present, resolves a handler attribute by name, adapts the
record into call arguments, invokes the handler and returns its result.

The embedding below translates that code into total Lean functions:
  - a request record is an association list of string keys to values;
  - each raise site of the Python code becomes an error constructor, paired
    with the record state at the moment of the raise (the caller's dict is
    mutated in place by the source, so the state matters on error paths too);
  - the external salt clients wrapped by the handlers are an abstract
    Backend record of functions, so theorems quantify over their behavior.
-/

set_option autoImplicit false

namespace SaltAPI

/-- Values stored in a lowstate request record. The routing code only ever
inspects string values; the other constructors model arbitrary extra fields
that are passed through untouched. -/
inductive Value where
  | str (s : String)
  | int (n : Int)
  | bool (b : Bool)
  | strList (ss : List String)
  | pynone
  deriving DecidableEq, Repr

/-- Result of a handler invocation: either a plain value, a per-host result
mapping (a Python dict), or a sequence (for batch results). -/
inductive Ret where
  | val (v : Value)
  | dict (entries : List (String × Value))
  | seq (items : List Value)
  deriving DecidableEq, Repr

/-- A lowstate request record: a Python dict with string keys, modelled as an
association list (first binding of a key wins). -/
abbrev Low := List (String × Value)

/-- Dict lookup: value of the first binding of key k, if any. -/
def lookupKey : Low → String → Option Value
  | [], _ => none
  | (k', v) :: rest, k => if k' = k then some v else lookupKey rest k

/-- Dict assignment low[k] = v: replaces the first binding of k in place, or
appends a new binding. -/
def setKey : Low → String → Value → Low
  | [], k, v => [(k, v)]
  | (k', v') :: rest, k, v =>
      if k' = k then (k, v) :: rest else (k', v') :: setKey rest k v

/-- Removes every binding of key k (a Python dict holds at most one). -/
def removeKey : Low → String → Low
  | [], _ => []
  | (k', v') :: rest, k =>
      if k' = k then removeKey rest k else (k', v') :: removeKey rest k

/-- Python s.split('.') : splits on every dot, keeping empty segments;
auxiliary accumulator form. -/
def splitDotAux : List Char → List Char → List String
  | [], acc => [String.mk acc.reverse]
  | c :: rest, acc =>
      if c = '.' then String.mk acc.reverse :: splitDotAux rest []
      else splitDotAux rest (c :: acc)

/-- Python s.split('.'). Never returns an empty list: splitDot "" = [""]. -/
def splitDot (s : String) : List String :=
  splitDotAux s.data []

/-- Python '.'.join(parts). -/
def joinDot : List String → String
  | [] => ""
  | [s] => s
  | s :: rest => s ++ "." ++ joinDot rest

/-- Rendering of a value into a message, as Python str.format does. The
routing code only ever formats string values; container and None renderings
are abstracted. -/
def pyStr : Value → String
  | .str s => s
  | .int n => toString n
  | .bool true => "True"
  | .bool false => "False"
  | .strList _ => "<list>"
  | .pynone => "None"

/-- The value low.get('fun', '') as a string: the missing key defaults to the
empty string; a non-string value cannot be split (Python raises there), which
the caller of this function maps to an error. -/
def getFunStr (low : Low) : Option String :=
  match lookupKey low "fun" with
  | none => some ""
  | some (.str s) => some s
  | some _ => none

/-- Condition of the prefix rule, line 46 of the source:
len(funparts) > 2 and funparts[0] in ['wheel', 'runner']. -/
def prefixTriggers (s : String) : Prop :=
  2 < (splitDot s).length ∧
    ((splitDot s).headD "" = "wheel" ∨ (splitDot s).headD "" = "runner")

instance (s : String) : Decidable (prefixTriggers s) := by
  unfold prefixTriggers; infer_instance

/-- Message of the SaltException raised at lines 48-49:
'With fun of "{1}", client must be "sync" or "async" not "{0}".' formatted
with the client value and the (string) fun value. -/
def invalidModeMessage (client : Value) (fn : String) : String :=
  "With fun of \"" ++ fn ++ "\", client must be \"sync\" or \"async\" not \""
    ++ pyStr client ++ "\"."

/-- Errors raised by run, one constructor per raise site:
  - authenticationRequired: EauthAuthenticationError, line 56;
  - invalidClientMode: SaltException with the formatted message, line 48;
  - unknownClient: AttributeError from getattr on a name that is no
    attribute of the APIClient object, line 59;
  - nonHandlerDispatch: getattr succeeded on an attribute that is not one
    of the lowstate handlers (the run method itself, the opts field, or a
    Python object built-in); what follows in the source (recursion or a
    type error in the call machinery) is outside the model, but it is
    observably not an AttributeError at the lookup;
  - missingArgument: the external argument adapter cannot bind a declared
    positional parameter from the record (SaltInvocationError);
  - typeError: a non-string value where the source calls a string method
    (fun value at .split, client value at getattr). -/
inductive RunError where
  | authenticationRequired
  | invalidClientMode (msg : String)
  | unknownClient (name : String)
  | nonHandlerDispatch (name : String)
  | missingArgument (name : String)
  | typeError
  deriving DecidableEq, Repr

/-- The five distinct handler implementations of APIClient. The aliases
(async, local, sync, runner, runner_async, wheel, wheel_async) name one of
these same five, see getattrAPIClient. -/
inductive Handler where
  | local_async
  | local_sync
  | local_batch
  | runner_sync
  | wheel_sync
  deriving DecidableEq, Repr

/-- Declared parameter shape of a handler method in the source:
(self, *args, **kwargs) for the local family, (self, fun, **kwargs) for the
runner and wheel family. -/
inductive ParamSpec where
  | varargsKwargs
  | funKwargs
  deriving DecidableEq, Repr

def Handler.paramSpec : Handler → ParamSpec
  | .local_async => .varargsKwargs
  | .local_sync => .varargsKwargs
  | .local_batch => .varargsKwargs
  | .runner_sync => .funKwargs
  | .wheel_sync => .funKwargs

/-- An attribute of an APIClient instance, as found by getattr: one of the
handler methods (under any of its names), the run method itself, the opts
instance field, or an attribute inherited from Python object. -/
inductive Attr where
  | handler (h : Handler)
  | runMethod
  | optsField
  | objectBuiltin (name : String)
  deriving DecidableEq, Repr

/-- Attribute names inherited from Python object by every APIClient
instance. -/
def objectAttrNames : List String :=
  ["__class__", "__delattr__", "__dict__", "__doc__", "__format__",
   "__getattribute__", "__hash__", "__init__", "__module__", "__new__",
   "__reduce__", "__reduce_ex__", "__repr__", "__setattr__", "__sizeof__",
   "__str__", "__subclasshook__", "__weakref__"]

/-- getattr(self, name) on an APIClient instance: resolves the five handler
methods and their aliases (lines 65-131 of the source), the run method, the
opts instance field, and the attributes inherited from object; any other
name raises AttributeError (modelled as none). -/
def getattrAPIClient (name : String) : Option Attr :=
  if name = "local_async" ∨ name = "async" then some (.handler .local_async)
  else if name = "local_sync" ∨ name = "local" ∨ name = "sync" then
    some (.handler .local_sync)
  else if name = "local_batch" then some (.handler .local_batch)
  else if name = "runner_sync" ∨ name = "runner" ∨ name = "runner_async" then
    some (.handler .runner_sync)
  else if name = "wheel_sync" ∨ name = "wheel" ∨ name = "wheel_async" then
    some (.handler .wheel_sync)
  else if name = "run" then some .runMethod
  else if name = "opts" then some .optsField
  else if name ∈ objectAttrNames then some (.objectBuiltin name)
  else none

/-- Lines 40-41: if no 'client' key, default it to 'async'. -/
def defaultClient (low : Low) : Low :=
  if lookupKey low "client" = none then setKey low "client" (.str "async")
  else low

/-- Lines 40-52: the client default and the wheel/runner prefix rule. On
success the (possibly rewritten) record is returned; on an error the record
state at the raise is returned alongside, since the source mutates the
caller's dict in place. -/
def normalize (low : Low) : Except (RunError × Low) Low :=
  match getFunStr (defaultClient low) with
  | none => .error (.typeError, defaultClient low)
  | some s =>
    if prefixTriggers s then
      match lookupKey (defaultClient low) "client" with
      | some v =>
        if v = Value.str "sync" ∨ v = Value.str "async" then
          .ok (setKey
                (setKey (defaultClient low) "client"
                  (.str ((splitDot s).headD "" ++ "_" ++ pyStr v)))
                "fun" (.str (joinDot (splitDot s).tail)))
        else .error (.invalidClientMode (invalidModeMessage v s),
                     defaultClient low)
      | none => .error (.typeError, defaultClient low)
    else .ok (defaultClient low)

/-- Modelled from the spec: the external argument adapter
(salt.utils.format_call at line 60, not part of this repository) matches the
record keys against the resolved handler's declared parameters. The local
handlers declare (self, *args, **kwargs): no positional parameter can match,
so every key is passed as a named argument. The runner and wheel handlers
declare (self, fun, **kwargs): the 'fun' key is passed positionally and
removed from the named arguments, and a record with no 'fun' key cannot bind
the declared positional parameter, which fails the call. -/
def format_call (spec : ParamSpec) (low : Low) :
    Except RunError (List Value × Low) :=
  match spec with
  | .varargsKwargs => .ok ([], low)
  | .funKwargs =>
    match lookupKey low "fun" with
    | some v => .ok ([v], removeKey low "fun")
    | none => .error (.missingArgument "fun")

/-- The dispatch decision run has made once all checks passed: which handler,
the adapted positional and named arguments, and the record state at dispatch
time. -/
structure Dispatch where
  handler : Handler
  args : List Value
  kwargs : Low
  record : Low
  deriving DecidableEq, Repr

/-- Lines 40-60 of run: normalization, credential check, attribute
resolution and argument adaptation, everything before the handler body
executes. Errors carry the record state at the raise. -/
def route (low : Low) : Except (RunError × Low) Dispatch :=
  match normalize low with
  | .error e => .error e
  | .ok low1 =>
    if lookupKey low1 "token" = none ∧ lookupKey low1 "eauth" = none then
      .error (.authenticationRequired, low1)
    else
      match lookupKey low1 "client" with
      | some (Value.str c) =>
        match getattrAPIClient c with
        | some (Attr.handler h) =>
          match format_call h.paramSpec low1 with
          | .error e => .error (e, low1)
          | .ok (args, kwargs) => .ok ⟨h, args, kwargs, low1⟩
        | some _ => .error (.nonHandlerDispatch c, low1)
        | none => .error (.unknownClient c, low1)
      | _ => .error (.typeError, low1)

/-- The external salt clients the handlers wrap, kept abstract: run_job and
cmd and cmd_batch are methods of salt.client.LocalClient, runner_low is
salt.runner.RunnerClient.low, master_call is salt.wheel.Wheel.master_call. -/
structure Backend where
  run_job : List Value → Low → Ret
  cmd : List Value → Low → Ret
  cmd_batch : List Value → Low → Ret
  runner_low : Value → Low → Ret
  master_call : Low → Ret

/-- Lines 65-74: local_async forwards to LocalClient.run_job. -/
def local_async (b : Backend) (args : List Value) (kwargs : Low) : Ret :=
  b.run_job args kwargs

/-- Lines 78-87: local_sync forwards to LocalClient.cmd. -/
def local_sync (b : Backend) (args : List Value) (kwargs : Low) : Ret :=
  b.cmd args kwargs

/-- Lines 92-102: local_batch forwards to LocalClient.cmd_batch. -/
def local_batch (b : Backend) (args : List Value) (kwargs : Low) : Ret :=
  b.cmd_batch args kwargs

/-- Lines 104-113: runner_sync forwards fun and the kwargs dict to
RunnerClient.low. -/
def runner_sync (b : Backend) (fn : Value) (kwargs : Low) : Ret :=
  b.runner_low fn kwargs

/-- Line 116: runner_async = runner_sync, an alias in the source. -/
def runner_async (b : Backend) (fn : Value) (kwargs : Low) : Ret :=
  runner_sync b fn kwargs

/-- Lines 118-128: wheel_sync injects fun into the kwargs under key 'fun'
and forwards them all to Wheel.master_call. -/
def wheel_sync (b : Backend) (fn : Value) (kwargs : Low) : Ret :=
  b.master_call (setKey kwargs "fun" fn)

/-- Line 131: wheel_async = wheel_sync, an alias in the source. -/
def wheel_async (b : Backend) (fn : Value) (kwargs : Low) : Ret :=
  wheel_sync b fn kwargs

/-- Invocation of the resolved handler on the adapted arguments, line 62.
For the runner and wheel handlers the adapter produced exactly one
positional argument (the fun value). -/
def invoke (b : Backend) : Handler → List Value → Low → Ret
  | .local_async, args, kwargs => local_async b args kwargs
  | .local_sync, args, kwargs => local_sync b args kwargs
  | .local_batch, args, kwargs => local_batch b args kwargs
  | .runner_sync, args, kwargs => runner_sync b (args.headD (.str "")) kwargs
  | .wheel_sync, args, kwargs => wheel_sync b (args.headD (.str "")) kwargs

/-- APIClient.run, lines 27-63: route the record, then invoke the resolved
handler and return its result unchanged, together with the final record
state. -/
def run (b : Backend) (low : Low) : Except (RunError × Low) (Ret × Low) :=
  match route low with
  | .error e => .error e
  | .ok d => .ok (invoke b d.handler d.args d.kwargs, d.record)

/-- The record state after run returns or raises (the source mutates the
caller's dict in place, so this state is observable in both cases). -/
def recordOf : Except (RunError × Low) (Ret × Low) → Low
  | .error (_, l) => l
  | .ok (_, l) => l

/-- The record state carried by a routing outcome. -/
def routeRecord : Except (RunError × Low) Dispatch → Low
  | .error (_, l) => l
  | .ok d => d.record

/-- The record state carried by a normalization outcome. -/
def normRecord : Except (RunError × Low) Low → Low
  | .error (_, l) => l
  | .ok l => l

/-- A concrete deterministic backend, standing in for the mock of the spec:
cmd answers with the per-host mapping of the spec's example. -/
def mockBackend : Backend where
  run_job := fun _ _ => .val (.str "20130625220959354621")
  cmd := fun _ _ => .dict [("minion1", .bool true)]
  cmd_batch := fun _ _ => .seq [.str "batch1"]
  runner_low := fun fn kw => .dict [("fun", fn), ("kwargs", .int (kw.length))]
  master_call := fun kw => .dict kw

instance {ε α : Type} [DecidableEq ε] [DecidableEq α] : DecidableEq (Except ε α) :=
  fun x y =>
    match x, y with
    | .error a, .error b =>
      if h : a = b then .isTrue (by rw [h])
      else .isFalse (by intro hh; injection hh; contradiction)
    | .error _, .ok _ => .isFalse (by intro hh; injection hh)
    | .ok _, .error _ => .isFalse (by intro hh; injection hh)
    | .ok a, .ok b =>
      if h : a = b then .isTrue (by rw [h])
      else .isFalse (by intro hh; injection hh; contradiction)

theorem lookupKey_setKey_self (l : Low) (k : String) (v : Value) :
    lookupKey (setKey l k v) k = some v := by
  induction l with
  | nil => simp [setKey, lookupKey]
  | cons p tl ih =>
    obtain ⟨a, b⟩ := p
    by_cases hak : a = k <;> simp [setKey, lookupKey, hak, ih]

theorem lookupKey_setKey_other (l : Low) (k k' : String) (v : Value)
    (h : k' ≠ k) : lookupKey (setKey l k v) k' = lookupKey l k' := by
  induction l with
  | nil => simp [setKey, lookupKey, Ne.symm h]
  | cons p tl ih =>
    obtain ⟨a, b⟩ := p
    by_cases hak : a = k
    · subst hak
      simp [setKey, lookupKey, Ne.symm h]
    · simp [setKey, lookupKey, hak, ih]

theorem lookupKey_removeKey_other (l : Low) (k k' : String) (h : k' ≠ k) :
    lookupKey (removeKey l k) k' = lookupKey l k' := by
  induction l with
  | nil => simp [removeKey]
  | cons p tl ih =>
    obtain ⟨a, b⟩ := p
    by_cases hak : a = k
    · subst hak
      simp [removeKey, lookupKey, ih, Ne.symm h]
    · simp [removeKey, lookupKey, hak, ih]

theorem defaultClient_of_some (low : Low) (v : Value)
    (h : lookupKey low "client" = some v) : defaultClient low = low := by
  simp [defaultClient, h]

theorem defaultClient_of_none (low : Low)
    (h : lookupKey low "client" = none) :
    defaultClient low = setKey low "client" (.str "async") := by
  simp [defaultClient, h]

theorem lookupKey_defaultClient_other (low : Low) (k : String)
    (h : k ≠ "client") :
    lookupKey (defaultClient low) k = lookupKey low k := by
  unfold defaultClient
  split
  · exact lookupKey_setKey_other low "client" k _ h
  · rfl

theorem getFunStr_defaultClient (low : Low) :
    getFunStr (defaultClient low) = getFunStr low := by
  unfold getFunStr
  rw [lookupKey_defaultClient_other low "fun" (by decide)]

theorem lookupKey_normRecord (low : Low) (k : String)
    (h1 : k ≠ "client") (h2 : k ≠ "fun") :
    lookupKey (normRecord (normalize low)) k = lookupKey low k := by
  have hd : lookupKey (defaultClient low) k = lookupKey low k :=
    lookupKey_defaultClient_other low k h1
  unfold normalize
  cases hg : getFunStr (defaultClient low) with
  | none => simpa [normRecord] using hd
  | some s =>
    by_cases hp : prefixTriggers s
    · simp only [hp, if_true]
      cases hc : lookupKey (defaultClient low) "client" with
      | none => simpa [normRecord] using hd
      | some v =>
        by_cases hv : v = Value.str "sync" ∨ v = Value.str "async"
        · simp only [hv, if_true, normRecord]
          rw [lookupKey_setKey_other _ _ _ _ h2,
              lookupKey_setKey_other _ _ _ _ h1, hd]
        · simpa [hv, normRecord] using hd
    · simpa [hp, normRecord] using hd

theorem routeRecord_route (low : Low) :
    routeRecord (route low) = normRecord (normalize low) := by
  unfold route
  cases hn : normalize low with
  | error e => obtain ⟨a, b⟩ := e; simp [routeRecord, normRecord]
  | ok low1 =>
    simp only [normRecord]
    by_cases ht : lookupKey low1 "token" = none ∧ lookupKey low1 "eauth" = none
    · simp [ht, routeRecord]
    · simp only [ht, if_false]
      cases hc : lookupKey low1 "client" with
      | none => simp [routeRecord]
      | some v =>
        cases v with
        | str c =>
          cases ha : getattrAPIClient c with
          | none => simp [ha, routeRecord]
          | some a =>
            cases a with
            | handler h =>
              cases hf : format_call h.paramSpec low1 with
              | error e => simp [ha, hf, routeRecord]
              | ok p => obtain ⟨args, kwargs⟩ := p; simp [ha, hf, routeRecord]
            | runMethod => simp [ha, routeRecord]
            | optsField => simp [ha, routeRecord]
            | objectBuiltin n => simp [ha, routeRecord]
        | int n => simp [routeRecord]
        | bool b => simp [routeRecord]
        | strList ss => simp [routeRecord]
        | pynone => simp [routeRecord]

theorem recordOf_run (b : Backend) (low : Low) :
    recordOf (run b low) = routeRecord (route low) := by
  unfold run
  cases hr : route low with
  | error e => obtain ⟨a, l⟩ := e; simp [recordOf, routeRecord]
  | ok d => simp [recordOf, routeRecord]

/-- Claim C1, counterexample: the request with fun "runner.foo.bar" and
client "weird", missing both token and eauth, does not fail with
AuthenticationRequired: the prefix rule's client-mode check at lines 46-49
runs before the credential check at line 55, so run raises the
InvalidClientMode SaltException instead. -/
theorem run_auth_after_prefix_cex :
    route [("fun", Value.str "runner.foo.bar"), ("client", Value.str "weird")] =
      .error (.invalidClientMode
                (invalidModeMessage (Value.str "weird") "runner.foo.bar"),
              [("fun", Value.str "runner.foo.bar"),
               ("client", Value.str "weird")]) ∧
    route [("fun", Value.str "runner.foo.bar"), ("client", Value.str "weird")] ≠
      .error (.authenticationRequired,
              [("fun", Value.str "runner.foo.bar"),
               ("client", Value.str "weird")]) := by
  constructor
  · rfl
  · decide

/-- Claim C1, amended: for every request record missing both the token and
the eauth key on which the preceding normalization phase succeeds (the fun
value, if present, is a string, and the prefix rule does not hit an invalid
client mode), run raises AuthenticationRequired, and no handler call is
attempted: the outcome is the same error for every backend. -/
theorem run_missing_credentials (low low1 : Low) (b : Backend)
    (hn : normalize low = .ok low1)
    (ht : lookupKey low "token" = none)
    (he : lookupKey low "eauth" = none) :
    route low = .error (.authenticationRequired, low1) ∧
    run b low = .error (.authenticationRequired, low1) := by
  have ht1 : lookupKey low1 "token" = none := by
    have h := lookupKey_normRecord low "token" (by decide) (by decide)
    rw [hn] at h
    simpa [normRecord, ht] using h
  have he1 : lookupKey low1 "eauth" = none := by
    have h := lookupKey_normRecord low "eauth" (by decide) (by decide)
    rw [hn] at h
    simpa [normRecord, he] using h
  have hr : route low = .error (.authenticationRequired, low1) := by
    unfold route
    rw [hn]
    simp [ht1, he1]
  exact ⟨hr, by unfold run; rw [hr]⟩

/-- Claim C1, witness for the amended theorem at the concrete record with
only a fun key: the client is defaulted and run fails on the missing
credentials. -/
theorem run_missing_credentials_witness :
    route [("fun", Value.str "test.ping")] =
      .error (.authenticationRequired,
              [("fun", Value.str "test.ping"),
               ("client", Value.str "async")]) :=
  (run_missing_credentials [("fun", Value.str "test.ping")]
    [("fun", Value.str "test.ping"), ("client", Value.str "async")]
    mockBackend (by rfl) (by rfl) (by rfl)).1

/-- Claim C2: a request whose fun value splits into a wheel or runner prefix
followed by at least two further dot-separated segments, with a client value
of exactly "sync" or "async", has its client rewritten to prefix_client and
its fun rewritten to the remainder after the prefix segment (lines 44-52). -/
theorem run_prefix_rewrite (low : Low) (s c : String)
    (hfun : lookupKey low "fun" = some (.str s))
    (hlen : 2 < (splitDot s).length)
    (hp : (splitDot s).headD "" = "wheel" ∨ (splitDot s).headD "" = "runner")
    (hc : lookupKey low "client" = some (.str c))
    (hcs : c = "sync" ∨ c = "async") :
    normalize low =
      .ok (setKey
            (setKey low "client" (.str ((splitDot s).headD "" ++ "_" ++ c)))
            "fun" (.str (joinDot (splitDot s).tail))) := by
  have hdc : defaultClient low = low := defaultClient_of_some low _ hc
  have hgf : getFunStr low = some s := by simp [getFunStr, hfun]
  have hpt : prefixTriggers s := ⟨hlen, hp⟩
  have hv : (Value.str c) = Value.str "sync" ∨ (Value.str c) = Value.str "async" := by
    rcases hcs with h | h <;> [left; right] <;> rw [h]
  unfold normalize
  rw [hdc, hgf]
  simp only [hpt, if_true, hc, hv, if_true, pyStr]

/-- Claim C2, witness: fun "wheel.foo.bar" with client "sync" resolves to
client "wheel_sync" and fun "foo.bar". -/
theorem run_prefix_rewrite_witness :
    normalize [("fun", Value.str "wheel.foo.bar"),
               ("client", Value.str "sync"), ("token", Value.str "t")] =
      .ok [("fun", Value.str "foo.bar"), ("client", Value.str "wheel_sync"),
           ("token", Value.str "t")] :=
  run_prefix_rewrite
    [("fun", Value.str "wheel.foo.bar"), ("client", Value.str "sync"),
     ("token", Value.str "t")]
    "wheel.foo.bar" "sync" (by rfl) (by decide) (by decide) (by rfl)
    (by decide)

/-- Claim C3: a request whose fun value triggers the prefix rule but whose
client value is neither "sync" nor "async" fails with the InvalidClientMode
SaltException of lines 48-49, whose formatted message contains both the
offending client value and the function name. -/
theorem run_prefix_invalid_client_mode (low : Low) (s : String) (v : Value)
    (hfun : lookupKey low "fun" = some (.str s))
    (hlen : 2 < (splitDot s).length)
    (hp : (splitDot s).headD "" = "wheel" ∨ (splitDot s).headD "" = "runner")
    (hc : lookupKey low "client" = some v)
    (hv1 : v ≠ Value.str "sync") (hv2 : v ≠ Value.str "async") :
    route low = .error (.invalidClientMode (invalidModeMessage v s), low) ∧
    (pyStr v).data <:+: (invalidModeMessage v s).data ∧
    s.data <:+: (invalidModeMessage v s).data := by
  have hdc : defaultClient low = low := defaultClient_of_some low _ hc
  have hgf : getFunStr low = some s := by simp [getFunStr, hfun]
  have hpt : prefixTriggers s := ⟨hlen, hp⟩
  have hv : ¬(v = Value.str "sync" ∨ v = Value.str "async") := by
    rintro (h | h) <;> [exact hv1 h; exact hv2 h]
  have hnorm : normalize low =
      .error (.invalidClientMode (invalidModeMessage v s), low) := by
    unfold normalize
    rw [hdc, hgf]
    simp only [hpt, if_true, hc, hv, if_false]
  refine ⟨?_, ?_, ?_⟩
  · unfold route
    rw [hnorm]
  · exact ⟨("With fun of \"" ++ s ++ "\", client must be \"sync\" or \"async\" not \"").data,
      "\".".data, by simp [invalidModeMessage, String.data_append]⟩
  · exact ⟨"With fun of \"".data,
      ("\", client must be \"sync\" or \"async\" not \"" ++ pyStr v ++ "\".").data,
      by simp [invalidModeMessage, String.data_append]⟩

/-- Claim C3, witness: fun "runner.foo.bar" with client "weird" fails with
the InvalidClientMode message naming both. -/
theorem run_prefix_invalid_client_mode_witness :
    route [("fun", Value.str "runner.foo.bar"),
           ("client", Value.str "weird"), ("eauth", Value.str "pam")] =
      .error (.invalidClientMode
                (invalidModeMessage (Value.str "weird") "runner.foo.bar"),
              [("fun", Value.str "runner.foo.bar"),
               ("client", Value.str "weird"), ("eauth", Value.str "pam")]) :=
  (run_prefix_invalid_client_mode
    [("fun", Value.str "runner.foo.bar"), ("client", Value.str "weird"),
     ("eauth", Value.str "pam")]
    "runner.foo.bar" (Value.str "weird") (by rfl) (by decide) (by decide)
    (by rfl) (by decide) (by decide)).1

/-- Claim C4: a request with no client key is defaulted to client "async"
(lines 40-41); for an unprefixed fun with a credential present, the alias
async = local_async resolves, and run invokes LocalClient.run_job on the
adapted arguments, returning its result. -/
theorem run_default_client_async (low : Low) (s : String) (b : Backend)
    (hnoc : lookupKey low "client" = none)
    (hfun : getFunStr low = some s)
    (hnp : ¬ prefixTriggers s)
    (hcred : ¬(lookupKey low "token" = none ∧ lookupKey low "eauth" = none)) :
    route low = .ok ⟨.local_async, [], setKey low "client" (.str "async"),
                     setKey low "client" (.str "async")⟩ ∧
    run b low = .ok (b.run_job [] (setKey low "client" (.str "async")),
                     setKey low "client" (.str "async")) := by
  have hdc : defaultClient low = setKey low "client" (.str "async") :=
    defaultClient_of_none low hnoc
  have hgf : getFunStr (defaultClient low) = some s := by
    rw [getFunStr_defaultClient]; exact hfun
  have hnorm : normalize low = .ok (setKey low "client" (.str "async")) := by
    unfold normalize
    rw [hgf]
    simp only [hnp, if_false, hdc, ite_false]
  have ht1 : lookupKey (setKey low "client" (.str "async")) "token" =
      lookupKey low "token" :=
    lookupKey_setKey_other low "client" "token" _ (by decide)
  have he1 : lookupKey (setKey low "client" (.str "async")) "eauth" =
      lookupKey low "eauth" :=
    lookupKey_setKey_other low "client" "eauth" _ (by decide)
  have hcred1 : ¬(lookupKey (setKey low "client" (.str "async")) "token" = none ∧
      lookupKey (setKey low "client" (.str "async")) "eauth" = none) := by
    rw [ht1, he1]; exact hcred
  have hcl : lookupKey (setKey low "client" (.str "async")) "client" =
      some (Value.str "async") :=
    lookupKey_setKey_self low "client" _
  have hr : route low = .ok ⟨.local_async, [],
      setKey low "client" (.str "async"),
      setKey low "client" (.str "async")⟩ := by
    simp only [route, hnorm]
    rw [if_neg hcred1]
    simp only [hcl]
    rfl
  exact ⟨hr, by unfold run; rw [hr]; rfl⟩

/-- Claim C4, witness: the request with only fun "test.ping" and eauth "pam"
is defaulted to client "async" and dispatched to local_async, whose wrapped
run_job result (the mock job identifier) is returned. -/
theorem run_default_client_async_witness :
    run mockBackend [("fun", Value.str "test.ping"),
                     ("eauth", Value.str "pam")] =
      .ok (.val (.str "20130625220959354621"),
           [("fun", Value.str "test.ping"), ("eauth", Value.str "pam"),
            ("client", Value.str "async")]) :=
  (run_default_client_async
    [("fun", Value.str "test.ping"), ("eauth", Value.str "pam")]
    "test.ping" mockBackend (by rfl) (by rfl) (by decide) (by decide)).2

/-- Claim C5: a request with client "sync", an unprefixed fun and a
credential present is dispatched to local_sync (through the alias
sync = local_sync), the whole record — the fun entry included — is forwarded
as the named arguments, and run returns exactly what the wrapped
LocalClient.cmd returns, unmodified. -/
theorem run_sync_local_passthrough (low : Low) (s : String) (b : Backend)
    (hc : lookupKey low "client" = some (.str "sync"))
    (hfun : getFunStr low = some s)
    (hnp : ¬ prefixTriggers s)
    (hcred : ¬(lookupKey low "token" = none ∧ lookupKey low "eauth" = none)) :
    route low = .ok ⟨.local_sync, [], low, low⟩ ∧
    run b low = .ok (b.cmd [] low, low) ∧
    lookupKey (Dispatch.kwargs ⟨.local_sync, [], low, low⟩) "fun" =
      lookupKey low "fun" := by
  have hdc : defaultClient low = low := defaultClient_of_some low _ hc
  have hgf : getFunStr (defaultClient low) = some s := by
    rw [hdc]; exact hfun
  have hnorm : normalize low = .ok low := by
    unfold normalize
    rw [hgf]
    simp only [hnp, if_false, hdc, ite_false]
  have hr : route low = .ok ⟨.local_sync, [], low, low⟩ := by
    simp only [route, hnorm]
    rw [if_neg hcred]
    simp only [hc]
    rfl
  exact ⟨hr, by unfold run; rw [hr]; rfl, rfl⟩

/-- Claim C5, witness: the spec's example request, with the mock backend
whose cmd answers the per-host mapping of the spec; run returns that mapping
unchanged and the record is untouched. -/
theorem run_sync_local_passthrough_witness :
    run mockBackend [("client", Value.str "sync"),
                     ("fun", Value.str "test.ping"),
                     ("token", Value.str "x")] =
      .ok (.dict [("minion1", .bool true)],
           [("client", Value.str "sync"), ("fun", Value.str "test.ping"),
            ("token", Value.str "x")]) :=
  (run_sync_local_passthrough
    [("client", Value.str "sync"), ("fun", Value.str "test.ping"),
     ("token", Value.str "x")]
    "test.ping" mockBackend (by rfl) (by rfl) (by decide) (by decide)).2.1

/-- Claim C6, counterexample: the resolved client name "run" is none of the
twelve documented handler names, yet run does not fail with an
UnknownClient (AttributeError) error: getattr(self, "run") at line 59
succeeds, finding the run method itself, so control dispatches to a
non-handler attribute instead. -/
theorem run_client_run_cex :
    route [("client", Value.str "run"), ("token", Value.str "x")] =
      .error (.nonHandlerDispatch "run",
              [("client", Value.str "run"), ("token", Value.str "x")]) ∧
    route [("client", Value.str "run"), ("token", Value.str "x")] ≠
      .error (.unknownClient "run",
              [("client", Value.str "run"), ("token", Value.str "x")]) := by
  constructor
  · rfl
  · decide

/-- Claim C6, amended: for every credentialed request whose resolved client
name is no attribute of the APIClient object at all — none of the twelve
handler names, nor run, opts, or a Python object built-in — run fails with
the UnknownClient (AttributeError) error, and no handler is invoked: the
outcome is the same error for every backend. -/
theorem run_unknown_client (low low1 : Low) (c : String) (b : Backend)
    (hn : normalize low = .ok low1)
    (hcred : ¬(lookupKey low1 "token" = none ∧ lookupKey low1 "eauth" = none))
    (hc : lookupKey low1 "client" = some (.str c))
    (hattr : getattrAPIClient c = none) :
    route low = .error (.unknownClient c, low1) ∧
    run b low = .error (.unknownClient c, low1) := by
  have hr : route low = .error (.unknownClient c, low1) := by
    simp only [route, hn]
    rw [if_neg hcred]
    simp only [hc, hattr]
  exact ⟨hr, by unfold run; rw [hr]⟩

/-- Claim C6, witness for the amended theorem: client "bogus" is no
attribute of APIClient and run fails with UnknownClient. -/
theorem run_unknown_client_witness :
    run mockBackend [("client", Value.str "bogus"),
                     ("token", Value.str "x")] =
      .error (.unknownClient "bogus",
              [("client", Value.str "bogus"), ("token", Value.str "x")]) :=
  (run_unknown_client
    [("client", Value.str "bogus"), ("token", Value.str "x")]
    [("client", Value.str "bogus"), ("token", Value.str "x")]
    "bogus" mockBackend (by rfl) (by decide) (by rfl) (by rfl)).2

/-- Claim C7: the async variants of the runner and wheel handlers are the
very same functions as their sync variants (lines 116 and 131 are alias
assignments): for every argument list they return exactly the same result,
and attribute lookup sends both names to the same handler. -/
theorem async_variants_eq_sync (b : Backend) (fn : Value) (kwargs : Low) :
    runner_async b fn kwargs = runner_sync b fn kwargs ∧
    wheel_async b fn kwargs = wheel_sync b fn kwargs ∧
    getattrAPIClient "runner_async" = getattrAPIClient "runner_sync" ∧
    getattrAPIClient "wheel_async" = getattrAPIClient "wheel_sync" :=
  ⟨rfl, rfl, rfl, rfl⟩

/-- Claim C8: wheel_sync injects the fun value into the keyword arguments
under key 'fun' (line 126) and forwards them all to the single
Wheel.master_call (line 128), returning its result: the forwarded arguments
hold fn at key 'fun' and every other entry of the original kwargs
unchanged. -/
theorem wheel_sync_injects_fun (b : Backend) (fn : Value) (kwargs : Low) :
    wheel_sync b fn kwargs = b.master_call (setKey kwargs "fun" fn) ∧
    lookupKey (setKey kwargs "fun" fn) "fun" = some fn ∧
    (∀ k, k ≠ "fun" →
      lookupKey (setKey kwargs "fun" fn) k = lookupKey kwargs k) :=
  ⟨rfl, lookupKey_setKey_self kwargs "fun" fn,
   fun k hk => lookupKey_setKey_other kwargs "fun" k fn hk⟩

/-- Claim C8, witness at a concrete call: the fun value "key.gen" lands
under key 'fun' in the arguments forwarded to master_call and the other
entry is untouched. -/
theorem wheel_sync_injects_fun_witness :
    wheel_sync mockBackend (Value.str "key.gen")
        [("tgt", Value.str "minion1")] =
      mockBackend.master_call
        [("tgt", Value.str "minion1"), ("fun", Value.str "key.gen")] ∧
    lookupKey (setKey [("tgt", Value.str "minion1")] "fun"
        (Value.str "key.gen")) "tgt" = some (Value.str "minion1") :=
  ⟨(wheel_sync_injects_fun mockBackend (Value.str "key.gen")
      [("tgt", Value.str "minion1")]).1,
   (wheel_sync_injects_fun mockBackend (Value.str "key.gen")
      [("tgt", Value.str "minion1")]).2.2 "tgt" (by decide)⟩

/-- Claim C9: run rewrites at most the client and fun keys of the record,
only in the normalization before dispatch: whatever the outcome (value or
error, under any backend), every other key holds its original value in the
final record state, and on the success path the record the handler was
dispatched with is the record run ends in — nothing is rewritten after
dispatch. -/
theorem run_rewrites_only_client_fun (low : Low) (b : Backend) (k : String)
    (h1 : k ≠ "client") (h2 : k ≠ "fun") :
    lookupKey (recordOf (run b low)) k = lookupKey low k ∧
    (∀ d, route low = .ok d →
      run b low = .ok (invoke b d.handler d.args d.kwargs, d.record)) := by
  constructor
  · rw [recordOf_run, routeRecord_route]
    exact lookupKey_normRecord low k h1 h2
  · intro d hd
    unfold run
    rw [hd]

/-- Claim C9, witness: on a concrete defaulted request the eauth entry is
unchanged in the final record. -/
theorem run_rewrites_only_client_fun_witness :
    lookupKey (recordOf (run mockBackend
        [("fun", Value.str "test.ping"), ("eauth", Value.str "pam")]))
      "eauth" = some (Value.str "pam") :=
  (run_rewrites_only_client_fun
    [("fun", Value.str "test.ping"), ("eauth", Value.str "pam")]
    mockBackend "eauth" (by decide) (by decide)).1

/-- Claim C10, counterexample: the credentialed request with client
"runner" and no fun key raises an error about the missing function after
routing: the (spec-modelled) external argument adapter cannot bind the fun
parameter declared by runner_sync(self, fun, **kwargs), so the handler is
never invoked. -/
theorem run_missing_fun_runner_cex :
    run mockBackend [("client", Value.str "runner"),
                     ("eauth", Value.str "pam")] =
      .error (.missingArgument "fun",
              [("client", Value.str "runner"), ("eauth", Value.str "pam")]) :=
  rfl

/-- Claim C10, amended: for a request with no fun key or with fun equal to
the empty string, routing itself raises no error about the missing
function — the prefix rule does not fire, since the missing value is
treated as the empty string, and normalization succeeds unchanged; given
credentials and a client name resolving to a handler, run proceeds to
handler resolution, and to invocation in every case except when the fun key
is absent and the resolved handler declares fun as a positional parameter
(the runner and wheel family), where the external argument adapter fails on
the missing fun argument instead of invoking the handler. -/
theorem run_missing_fun_tolerated (low : Low) (c : String) (h : Handler)
    (b : Backend)
    (hfun : lookupKey low "fun" = none ∨ lookupKey low "fun" = some (.str ""))
    (hcred : ¬(lookupKey low "token" = none ∧ lookupKey low "eauth" = none))
    (hc : lookupKey low "client" = some (.str c))
    (hh : getattrAPIClient c = some (.handler h)) :
    normalize low = .ok low ∧
    (h.paramSpec = .varargsKwargs →
      route low = .ok ⟨h, [], low, low⟩ ∧
      run b low = .ok (invoke b h [] low, low)) ∧
    (h.paramSpec = .funKwargs → lookupKey low "fun" = some (.str "") →
      route low = .ok ⟨h, [.str ""], removeKey low "fun", low⟩) ∧
    (h.paramSpec = .funKwargs → lookupKey low "fun" = none →
      route low = .error (.missingArgument "fun", low)) := by
  have hdc : defaultClient low = low := defaultClient_of_some low _ hc
  have hgf : getFunStr low = some "" := by
    rcases hfun with h0 | h0 <;> simp [getFunStr, h0]
  have hnp : ¬ prefixTriggers "" := by decide
  have hnorm : normalize low = .ok low := by
    unfold normalize
    rw [hdc, hgf]
    simp only [hnp, if_false, ite_false]
  refine ⟨hnorm, ?_, ?_, ?_⟩
  · intro hps
    have hr : route low = .ok ⟨h, [], low, low⟩ := by
      simp only [route, hnorm]
      rw [if_neg hcred]
      simp only [hc, hh, hps, format_call]
    exact ⟨hr, by unfold run; rw [hr]⟩
  · intro hps hf
    simp only [route, hnorm]
    rw [if_neg hcred]
    simp only [hc, hh, hps, format_call, hf]
  · intro hps hf
    simp only [route, hnorm]
    rw [if_neg hcred]
    simp only [hc, hh, hps, format_call, hf]

/-- Claim C10, witness for the amended theorem: client "local" with no fun
key routes all the way to a dispatch of local_sync with the untouched
record as named arguments. -/
theorem run_missing_fun_tolerated_witness :
    route [("client", Value.str "local"), ("token", Value.str "x")] =
      .ok ⟨.local_sync, [],
           [("client", Value.str "local"), ("token", Value.str "x")],
           [("client", Value.str "local"), ("token", Value.str "x")]⟩ :=
  ((run_missing_fun_tolerated
      [("client", Value.str "local"), ("token", Value.str "x")]
      "local" .local_sync mockBackend (Or.inl rfl) (by decide) (by rfl)
      (by rfl)).2.1 rfl).1

end SaltAPI
